import Mathlib

/-!
Verification of the insight-weaver curation backend (Cloudflare Workers + D1).

The development shallowly embeds the TypeScript source:
* strings are lists of characters (`Str`); JavaScript string operations
  (`split(/\s+/)`, `includes`, `lastIndexOf`, `substring`) are translated
  char-by-char;
* database tables are Lean lists of records; SQL row ids (UUID strings) are
  modelled as abstract `Nat` identifiers; timestamp columns maintained by
  SQLite triggers (`created_at` / `updated_at`) are outside the model;
* ISO-8601 `published_at` strings compare lexicographically, which is
  chronological order, so publication instants are modelled as integers;
* external effects (RSS network fetch, Workers-AI embedding call, per-row
  insert failures) enter as explicit parameters (`Except` values or oracles);
* JavaScript's stable `Array.prototype.sort` and SQL `ORDER BY` are modelled
  by the stable `List.insertionSort`.
-/

namespace InsightWeaver

/-- JavaScript strings, modelled as lists of characters. -/
abbrev Str := List Char

/-- Membership of a character in JavaScript's `\s` class (ASCII part). -/
def isWs (c : Char) : Bool :=
  c = ' ' || c = '\t' || c = '\n' || c = '\r' || c = '\x0b' || c = '\x0c'

/-- `s.includes(q)` for JavaScript strings: `q` occurs contiguously in `s`. -/
def jsIncludes (s q : Str) : Bool :=
  if q.isPrefixOf s then true
  else
    match s with
    | [] => false
    | _ :: t => jsIncludes t q

/-- `s.toLowerCase()` (ASCII range, which covers all inputs in the claims). -/
def lower (s : Str) : Str := s.map Char.toLower

/-- The index of the first occurrence of `c`. -/
def idxOf? (c : Char) : Str → Option Nat
  | [] => none
  | x :: rest => if x = c then some 0 else (idxOf? c rest).map (· + 1)

/-- `String.prototype.lastIndexOf` for a single character: the largest index
at which `c` occurs in `s`, or `-1` when `c` does not occur. -/
def jsLastIndexOf (s : Str) (c : Char) : Int :=
  match idxOf? c s.reverse with
  | some i => (s.length : Int) - 1 - i
  | none => -1

/-- JavaScript `a || b` on an optional string column (`NULL` and `''` are
falsy). -/
def jsOrStr (a : Option Str) (b : Str) : Str :=
  match a with
  | some s => if s.isEmpty then b else s
  | none => b

/-- Truthiness of an optional string field (`undefined`/`null`/`''` falsy). -/
def strTruthy : Option Str → Bool
  | none => false
  | some s => !s.isEmpty

/-- The string carried by an optional field, `''` when absent. -/
def jsStr : Option Str → Str
  | none => []
  | some s => s

/-! ### Workspace / ordering model

`workspace_items(id, article_id, order_index, custom_content, custom_analysis,
is_edited, ...)` from the schema; `DatabaseService.addToWorkspace`,
`DatabaseService.updateWorkspaceItem` (workers/src/index.ts) and the
`POST /workspace/reorder` route (workers/src/routes/workspace.ts). -/

structure WorkspaceItem where
  id : Nat
  articleId : Nat
  order : Int
  customContent : Option Str := none
  customAnalysis : Option Str := none
  isEdited : Bool := false
deriving Repr, DecidableEq

/-- `SELECT COALESCE(MAX(order_index), -1) + 1 AS next_order FROM
workspace_items`. -/
def sqlNextOrder (items : List WorkspaceItem) : Int :=
  (match (items.map (·.order)).max? with
   | some m => m
   | none => -1) + 1

/-- The JavaScript coercion `maxOrderResult?.next_order || 0` applied to the
queried value (on integers `0` is the only falsy value). -/
def jsOrZero (n : Int) : Int := if n = 0 then 0 else n

/-- `DatabaseService.addToWorkspace(articleId)`: computes the next order
index, inserts a new row and returns it (the fresh UUID is passed in as
`newId`). -/
def addToWorkspace (items : List WorkspaceItem) (newId articleId : Nat) :
    List WorkspaceItem × WorkspaceItem :=
  let orderIndex := jsOrZero (sqlNextOrder items)
  let item : WorkspaceItem := { id := newId, articleId := articleId, order := orderIndex }
  (items ++ [item], item)

/-- One statement of the reorder batch:
`UPDATE workspace_items SET order_index = ? WHERE id = ?`. -/
def reorderUpdate (items : List WorkspaceItem) (itemId : Nat) (index : Int) :
    List WorkspaceItem :=
  items.map fun it => if it.id = itemId then { it with order := index } else it

/-- The reorder batch executed statement by statement: the statement for the
id at list position `k + i` sets `order_index` to `k + i`. -/
def reorderAux (items : List WorkspaceItem) (ids : List Nat) (k : Nat) :
    List WorkspaceItem :=
  match ids with
  | [] => items
  | i :: rest => reorderAux (reorderUpdate items i (k : Int)) rest (k + 1)

/-- `POST /workspace/reorder { itemIds }`: one `UPDATE` per supplied id,
setting its `order_index` to its position in the list. -/
def reorder (items : List WorkspaceItem) (ids : List Nat) : List WorkspaceItem :=
  reorderAux items ids 0

/-- The cumulative effect of the reorder batch on a single row. -/
def applyIds (ids : List Nat) (k : Nat) (it : WorkspaceItem) : WorkspaceItem :=
  match ids with
  | [] => it
  | i :: rest => applyIds rest (k + 1) (if it.id = i then { it with order := (k : Int) } else it)

/-- A `PATCH /workspace/items/:id` body: each field is either absent
(`undefined`, outer `none`) or supplies a new column value (possibly `NULL`,
inner `none`). -/
structure WorkspaceUpdates where
  customContent : Option (Option Str) := none
  customAnalysis : Option (Option Str) := none
deriving Repr, DecidableEq

/-- The `SET` clauses built by `DatabaseService.updateWorkspaceItem`: each
supplied field is written and each write also sets `is_edited = 1`. -/
def applyItemUpdate (u : WorkspaceUpdates) (it : WorkspaceItem) : WorkspaceItem :=
  let it1 :=
    match u.customContent with
    | some v => { it with customContent := v, isEdited := true }
    | none => it
  match u.customAnalysis with
  | some v => { it1 with customAnalysis := v, isEdited := true }
  | none => it1

/-- Effect of `UPDATE workspace_items SET ... WHERE id = ?` on one row. -/
def condUpdate (id : Nat) (u : WorkspaceUpdates) (it : WorkspaceItem) : WorkspaceItem :=
  if it.id = id then applyItemUpdate u it else it

/-- `DatabaseService.updateWorkspaceItem(id, updates)`: looks the row up,
returns `none` when absent, otherwise applies the update statement and
re-reads the row.  Returns the new table plus the returned row. -/
def updateWorkspaceItem (items : List WorkspaceItem) (id : Nat) (u : WorkspaceUpdates) :
    List WorkspaceItem × Option WorkspaceItem :=
  match items.find? (fun it => it.id == id) with
  | none => (items, none)
  | some existing =>
    if u.customContent = none ∧ u.customAnalysis = none then
      (items, some existing)
    else
      let items' := items.map (condUpdate id u)
      (items', items'.find? (fun it => it.id == id))

/-! ### Workspace lemmas -/

theorem applyItemUpdate_id (u : WorkspaceUpdates) (it : WorkspaceItem) :
    (applyItemUpdate u it).id = it.id := by
  unfold applyItemUpdate
  cases u.customContent <;> cases u.customAnalysis <;> rfl

theorem reorderAux_eq_map (ids : List Nat) (k : Nat) (items : List WorkspaceItem) :
    reorderAux items ids k = items.map (applyIds ids k) := by
  induction ids generalizing items k with
  | nil => simp [reorderAux, applyIds]
  | cons i rest ih =>
    simp only [reorderAux, reorderUpdate, ih, List.map_map]
    rfl

theorem applyIds_not_mem (ids : List Nat) (k : Nat) (it : WorkspaceItem)
    (h : it.id ∉ ids) : applyIds ids k it = it := by
  induction ids generalizing k with
  | nil => rfl
  | cons i rest ih =>
    simp only [List.mem_cons, not_or] at h
    simp only [applyIds, if_neg h.1]
    exact ih _ h.2

theorem applyIds_mem (ids : List Nat) (k : Nat) (it : WorkspaceItem)
    (hnd : ids.Nodup) (j : Nat) (hj : ids.get? j = some it.id) :
    applyIds ids k it = { it with order := ((k + j : Nat) : Int) } := by
  induction ids generalizing k j with
  | nil => simp at hj
  | cons i rest ih =>
    obtain ⟨h1, h2⟩ := List.nodup_cons.mp hnd
    cases j with
    | zero =>
      simp only [List.get?_cons_zero, Option.some.injEq] at hj
      subst hj
      simp only [applyIds]
      rw [if_pos trivial]
      have hstep := applyIds_not_mem rest (k + 1)
        { it with order := (k : Int) } h1
      rw [hstep]
      simp
    | succ j =>
      simp only [List.get?_cons_succ] at hj
      have hne : it.id ≠ i := fun h => h1 (h ▸ List.get?_mem hj)
      simp only [applyIds, if_neg hne]
      rw [ih (k + 1) h2 j hj]
      have harith : (k + 1) + j = k + (j + 1) := by omega
      rw [harith]

theorem find?_map_condUpdate (items : List WorkspaceItem) (id : Nat)
    (u : WorkspaceUpdates) (it : WorkspaceItem)
    (hfind : items.find? (fun w => w.id == id) = some it) :
    (items.map (condUpdate id u)).find? (fun w => w.id == id)
      = some (applyItemUpdate u it) := by
  induction items with
  | nil => simp at hfind
  | cons h t ih =>
    by_cases hh : h.id = id
    · rw [List.find?_cons_of_pos _ (by simpa using hh)] at hfind
      have hit : it = h := by simpa using hfind.symm
      subst hit
      simp only [List.map_cons]
      rw [List.find?_cons_of_pos]
      · rw [condUpdate, if_pos hh]
      · simp [condUpdate, if_pos hh, applyItemUpdate_id, hh]
    · rw [List.find?_cons_of_neg _ (by simpa using hh)] at hfind
      simp only [List.map_cons]
      rw [List.find?_cons_of_neg]
      · exact ih hfind
      · simp [condUpdate, if_neg hh, hh]

theorem applyItemUpdate_fields (u : WorkspaceUpdates) (it : WorkspaceItem) :
    (applyItemUpdate u it).id = it.id ∧
    (applyItemUpdate u it).articleId = it.articleId ∧
    (applyItemUpdate u it).order = it.order ∧
    (applyItemUpdate u it).customContent = u.customContent.getD it.customContent ∧
    (applyItemUpdate u it).customAnalysis = u.customAnalysis.getD it.customAnalysis ∧
    ((u.customContent ≠ none ∨ u.customAnalysis ≠ none) →
      (applyItemUpdate u it).isEdited = true) := by
  obtain ⟨cc, ca⟩ := u
  cases cc <;> cases ca <;> simp [applyItemUpdate]

/-- C1: for every workspace state, `addToWorkspace(articleId)` assigns the
new `WorkspaceItem` an `order` equal to the maximum order among existing
workspace items plus 1, and assigns order 0 when the workspace is empty. -/
theorem c1_addToWorkspace_order (items : List WorkspaceItem) (newId articleId : Nat) :
    (items = [] → (addToWorkspace items newId articleId).2.order = 0) ∧
    (∀ m, (items.map (·.order)).max? = some m →
      (addToWorkspace items newId articleId).2.order = m + 1) := by
  constructor
  · intro h
    subst h
    rfl
  · intro m hm
    simp only [addToWorkspace, sqlNextOrder, jsOrZero, hm]
    split <;> omega

theorem c1_addToWorkspace_order_witness :
    (addToWorkspace [] 1 7).2.order = 0 ∧
    (addToWorkspace [⟨1, 7, 0, none, none, false⟩] 2 8).2.order = 0 + 1 :=
  ⟨(c1_addToWorkspace_order [] 1 7).1 rfl,
   (c1_addToWorkspace_order [⟨1, 7, 0, none, none, false⟩] 2 8).2 0 (by decide)⟩

/-- C2: `reorder(orderedIds)` sets each referenced item's `order` to its
index in the supplied list (assuming the ids in the list are distinct, which
the route does not validate), and every workspace item whose id is not in
the list keeps its order and all other fields unchanged. -/
theorem c2_reorder_semantics (items : List WorkspaceItem) (ids : List Nat) (i : Nat)
    (it : WorkspaceItem) (hit : items.get? i = some it) :
    (it.id ∉ ids → (reorder items ids).get? i = some it) ∧
    (ids.Nodup → ∀ j, ids.get? j = some it.id →
      (reorder items ids).get? i = some { it with order := (j : Int) }) := by
  unfold reorder
  rw [reorderAux_eq_map]
  constructor
  · intro hmem
    rw [List.get?_map, hit]
    simp [applyIds_not_mem ids 0 it hmem]
  · intro hnd j hj
    rw [List.get?_map, hit]
    rw [Option.map_some']
    rw [applyIds_mem ids 0 it hnd j hj]
    simp

theorem c2_reorder_semantics_witness :
    (reorder [⟨1, 10, 0, none, none, false⟩, ⟨2, 11, 1, none, none, false⟩] [2, 1]).get? 0
        = some ⟨1, 10, 1, none, none, false⟩ ∧
    (reorder [⟨1, 10, 0, none, none, false⟩, ⟨2, 11, 1, none, none, false⟩] [2, 1]).get? 1
        = some ⟨2, 11, 0, none, none, false⟩ :=
  ⟨(c2_reorder_semantics [⟨1, 10, 0, none, none, false⟩, ⟨2, 11, 1, none, none, false⟩]
      [2, 1] 0 ⟨1, 10, 0, none, none, false⟩ rfl).2 (by decide) 1 rfl,
   (c2_reorder_semantics [⟨1, 10, 0, none, none, false⟩, ⟨2, 11, 1, none, none, false⟩]
      [2, 1] 1 ⟨2, 11, 1, none, none, false⟩ rfl).2 (by decide) 0 rfl⟩

/-- C8: for an existing workspace item, `updateWorkspaceItem` with
`customContent` and/or `customAnalysis` defined sets `isEdited = true` and
updates exactly the supplied fields; a field left undefined keeps its prior
value, and `id`, `articleId` and `order` are never changed. -/
theorem c8_updateWorkspaceItem_partial (items : List WorkspaceItem) (id : Nat)
    (u : WorkspaceUpdates) (it : WorkspaceItem)
    (hfind : items.find? (fun w => w.id == id) = some it)
    (hsome : u.customContent ≠ none ∨ u.customAnalysis ≠ none) :
    ∃ it', (updateWorkspaceItem items id u).2 = some it' ∧
      it'.isEdited = true ∧
      it'.id = it.id ∧ it'.articleId = it.articleId ∧ it'.order = it.order ∧
      it'.customContent = u.customContent.getD it.customContent ∧
      it'.customAnalysis = u.customAnalysis.getD it.customAnalysis := by
  refine ⟨applyItemUpdate u it, ?_, ?_⟩
  · have hne : ¬(u.customContent = none ∧ u.customAnalysis = none) := by
      rcases hsome with h | h
      · exact fun hc => h hc.1
      · exact fun hc => h hc.2
    have hmap := find?_map_condUpdate items id u it hfind
    simp only [updateWorkspaceItem, hfind, if_neg hne]
    simpa using hmap
  · obtain ⟨h1, h2, h3, h4, h5, h6⟩ := applyItemUpdate_fields u it
    exact ⟨h6 hsome, h1, h2, h3, h4, h5⟩

theorem c8_updateWorkspaceItem_partial_witness :
    ∃ it', (updateWorkspaceItem [⟨5, 9, 2, some ['c'], none, false⟩] 5
        ⟨none, some (some ['x'])⟩).2 = some it' ∧
      it'.isEdited = true ∧
      it'.id = 5 ∧ it'.articleId = 9 ∧ it'.order = 2 ∧
      it'.customContent = some ['c'] ∧
      it'.customAnalysis = some ['x'] :=
  c8_updateWorkspaceItem_partial [⟨5, 9, 2, some ['c'], none, false⟩] 5
    ⟨none, some (some ['x'])⟩ ⟨5, 9, 2, some ['c'], none, false⟩ rfl
    (Or.inr (by decide))

/-! ### Text normalization (`FeedFetcher.cleanText` and friends)

All helpers are written with structural recursion (an explicit fuel argument
or an accumulator) so that every function reduces inside the kernel. -/

/-- `text.replace(/<[^>]*>/g, '')`: each maximal `<`…first-`>` block is
removed; a `<` never followed by `>` is kept verbatim (the regex does not
match there).  `pending` buffers the (reversed) characters of a potential
tag currently being scanned. -/
def stripGo (pending : Option Str) : Str → Str
  | [] =>
    match pending with
    | some buf => buf.reverse
    | none => []
  | c :: rest =>
    match pending with
    | some buf =>
      if c = '>' then stripGo none rest
      else stripGo (some (c :: buf)) rest
    | none =>
      if c = '<' then stripGo (some ['<']) rest
      else c :: stripGo none rest

def stripTags (s : Str) : Str := stripGo none s

/-- `s.replace(pat, rep)` with a global literal pattern: scanning resumes
after the replacement text.  The fuel argument equals the input length at
the top call and bounds the recursion (every step consumes at least one
input character). -/
def replaceAllFuel (pat rep : Str) : Nat → Str → Str
  | _, [] => []
  | 0, s => s
  | fuel + 1, c :: rest =>
    if !pat.isEmpty && pat.isPrefixOf (c :: rest) then
      rep ++ replaceAllFuel pat rep fuel ((c :: rest).drop pat.length)
    else c :: replaceAllFuel pat rep fuel rest

def replaceAll (pat rep s : Str) : Str := replaceAllFuel pat rep s.length s

/-- The entity-decoding chain of `cleanText`, in source order. -/
def decodeEntities (s : Str) : Str :=
  let s1 := replaceAll "&nbsp;".toList " ".toList s
  let s2 := replaceAll "&amp;".toList "&".toList s1
  let s3 := replaceAll "&lt;".toList "<".toList s2
  let s4 := replaceAll "&gt;".toList ">".toList s3
  let s5 := replaceAll "&quot;".toList "\"".toList s4
  replaceAll "&#39;".toList ['\''] s5

/-- `text.replace(/\s+/g, ' ')`: every maximal whitespace run becomes a
single space.  `skip` records that the current run has already emitted its
space. -/
def collapseGo (skip : Bool) : Str → Str
  | [] => []
  | c :: rest =>
    if isWs c then
      if skip then collapseGo true rest
      else ' ' :: collapseGo true rest
    else c :: collapseGo false rest

def collapseWs (s : Str) : Str := collapseGo false s

/-- `s.trim()`. -/
def jsTrim (s : Str) : Str :=
  ((s.dropWhile isWs).reverse.dropWhile isWs).reverse

/-- `FeedFetcher.cleanText`: strip HTML tags, decode entities, collapse
whitespace, trim; the empty (falsy) input short-circuits to `''`. -/
def cleanText (text : Str) : Str :=
  if text.isEmpty then []
  else jsTrim (collapseWs (decodeEntities (stripTags text)))

/-! ### Feed fetcher data model -/

/-- A parsed feed entry (`rss-parser` item).  `pubDate` is the publication
instant already parsed to a timestamp; `FeedFetcher.parseDate` substitutes
the current time when it is missing. -/
structure RSSItem where
  title : Option Str := none
  link : Option Str := none
  content : Option Str := none
  contentSnippet : Option Str := none
  author : Option Str := none
  pubDate : Option Int := none
deriving Repr, DecidableEq

/-- A row of `rss_feeds`. -/
structure Feed where
  id : Nat
  name : Str := []
  url : Str := []
  category : Str := []
  isActive : Bool := true
  lastFetched : Option Int := none
deriving Repr, DecidableEq

/-- A row of `articles`. -/
structure Article where
  id : Nat
  feedId : Nat
  title : Str := []
  content : Str := []
  snippet : Str := []
  author : Option Str := none
  publishedAt : Int := 0
  url : Str := []
  isRead : Bool := false
  isArchived : Bool := false
  category : Option Str := none
  summary : Option Str := none
  analysis : Option Str := none
deriving Repr, DecidableEq

/-- The store state used by the fetcher and the search service.  `nextId`
supplies the fresh row ids (`crypto.randomUUID()` in the source);
`maxArticlesSetting` is the parsed `max_articles_per_feed` setting row. -/
structure DBState where
  feeds : List Feed := []
  articles : List Article := []
  maxArticlesSetting : Option Nat := none
  nextId : Nat := 0
deriving Repr, DecidableEq

/-- `FeedFetcher.getMaxArticlesPerFeed`: the setting value, defaulting
to 50. -/
def getMaxArticlesPerFeed (st : DBState) : Nat :=
  st.maxArticlesSetting.getD 50

/-- `FeedFetcher.extractContent`. -/
def extractContent (item : RSSItem) : Str :=
  let content := jsOrStr item.content (jsStr item.contentSnippet)
  let content := if content.isEmpty && strTruthy item.title then jsStr item.title else content
  cleanText content

/-- `FeedFetcher.createSnippet` at its only call-site cap of 200
characters.  In IEEE doubles `200 * 0.7` is exactly `140`, so the float
threshold is the integer 140. -/
def createSnippet (item : RSSItem) : Str :=
  let content := jsOrStr item.contentSnippet (jsOrStr item.content (jsStr item.title))
  let cleaned := cleanText content
  if cleaned.length ≤ 200 then cleaned
  else
    let truncated := cleaned.take 200
    let lastSentence := jsLastIndexOf truncated '.'
    let lastSpace := jsLastIndexOf truncated ' '
    if lastSentence > 140 then truncated.take (lastSentence + 1).toNat
    else if lastSpace > 0 then truncated.take lastSpace.toNat ++ "...".toList
    else truncated ++ "...".toList

/-- The article record built inside `FeedFetcher.fetchFeed` for an accepted
entry (`author: item.author || undefined` turns an empty author into
`undefined`). -/
def mkArticle (id : Nat) (feed : Feed) (item : RSSItem) (link : Str) (now : Int) : Article :=
  { id := id
    feedId := feed.id
    title := cleanText (jsStr item.title)
    content := extractContent item
    snippet := createSnippet item
    author := if strTruthy item.author then item.author else none
    publishedAt := item.pubDate.getD now
    url := link
    isRead := false
    isArchived := false
    category := some feed.category
    summary := none
    analysis := none }

/-- One iteration of the entry loop in `FeedFetcher.fetchFeed`: skip the
entry when link or title is falsy, skip when an article with the same url
already exists, skip when the insert throws (`insertFails` oracle), else
append the new row.  The accumulator carries the articles table, the fresh
id counter and the `articlesAdded` count. -/
def processItem (feed : Feed) (now : Int) (insertFails : RSSItem → Bool)
    (acc : List Article × Nat × Nat) (item : RSSItem) : List Article × Nat × Nat :=
  if !strTruthy item.link || !strTruthy item.title then acc
  else
    let link := jsStr item.link
    if acc.1.any (fun a => a.url == link) then acc
    else if insertFails item then acc
    else (acc.1 ++ [mkArticle acc.2.1 feed item link now], acc.2.1 + 1, acc.2.2 + 1)

def processItems (feed : Feed) (now : Int) (insertFails : RSSItem → Bool)
    (arts : List Article) (nid : Nat) (items : List RSSItem) :
    List Article × Nat × Nat :=
  items.foldl (processItem feed now insertFails) (arts, nid, 0)

/-- Descending publication order (`ORDER BY published_at DESC`). -/
def pubDesc (a b : Article) : Prop := b.publishedAt ≤ a.publishedAt

instance : DecidableRel pubDesc := fun a b =>
  inferInstanceAs (Decidable (b.publishedAt ≤ a.publishedAt))

instance : IsTotal Article pubDesc :=
  ⟨fun a b => le_total b.publishedAt a.publishedAt⟩

instance : IsTrans Article pubDesc :=
  ⟨fun _ _ _ h1 h2 => le_trans h2 h1⟩

/-- `FeedFetcher.cleanupOldArticles`: delete the feed's rows whose id is not
among the `maxArticles` most recently published rows of that feed. -/
def cleanupOldArticles (articles : List Article) (feedId : Nat) (maxArticles : Nat) :
    List Article :=
  let keep :=
    (((articles.filter (fun a => a.feedId == feedId)).insertionSort pubDesc).take
      maxArticles).map (·.id)
  articles.filter (fun a => !(a.feedId == feedId) || keep.contains a.id)

structure FetchResult where
  success : Bool
  articlesAdded : Nat
  error : Option String := none
deriving Repr, DecidableEq

/-- `FeedFetcher.fetchFeed(feedId)`.  The RSS retrieval is external, so its
outcome is a parameter: `Except.error msg` models `parser.parseURL`
throwing with message `msg`, `Except.ok items` models a parse that returned
`items`.  Per-entry insert outcomes are the `insertFails` oracle. -/
def fetchFeed (st : DBState) (feedId : Nat) (now : Int)
    (parseResult : Except String (List RSSItem)) (insertFails : RSSItem → Bool) :
    DBState × FetchResult :=
  match st.feeds.find? (fun f => f.id == feedId) with
  | none => (st, ⟨false, 0, some "Feed not found or inactive"⟩)
  | some feed =>
    if !feed.isActive then (st, ⟨false, 0, some "Feed not found or inactive"⟩)
    else
      match parseResult with
      | .error msg => (st, ⟨false, 0, some msg⟩)
      | .ok items =>
        let maxArticles := getMaxArticlesPerFeed st
        let recentItems := items.take maxArticles
        let res := processItems feed now insertFails st.articles st.nextId recentItems
        let feeds' := st.feeds.map fun f =>
          if f.id = feedId then { f with lastFetched := some now } else f
        let arts' := cleanupOldArticles res.1 feedId maxArticles
        ({ st with feeds := feeds', articles := arts', nextId := res.2.1 },
         ⟨true, res.2.2, none⟩)

/-! ### Feed fetcher lemmas -/

/-- Well-formedness of the articles table with respect to the id supply:
row ids are pairwise distinct and below the counter. -/
def IdInv (arts : List Article) (nid : Nat) : Prop :=
  (arts.map (·.id)).Nodup ∧ ∀ a ∈ arts, a.id < nid

theorem processItem_idInv (feed : Feed) (now : Int) (insertFails : RSSItem → Bool)
    (acc : List Article × Nat × Nat) (item : RSSItem) (h : IdInv acc.1 acc.2.1) :
    IdInv (processItem feed now insertFails acc item).1
      (processItem feed now insertFails acc item).2.1 := by
  obtain ⟨hnd, hlt⟩ := h
  simp only [processItem]
  split
  · exact ⟨hnd, hlt⟩
  split
  · exact ⟨hnd, hlt⟩
  split
  · exact ⟨hnd, hlt⟩
  constructor
  · rw [List.map_append]
    refine List.Nodup.append hnd (List.nodup_singleton _) ?_
    intro x hx1 hx2
    simp only [mkArticle, List.map_cons, List.map_nil, List.mem_singleton] at hx2
    subst hx2
    obtain ⟨a, ha, hid⟩ := List.mem_map.mp hx1
    exact absurd (hid ▸ hlt a ha) (lt_irrefl _)
  · intro a ha
    rcases List.mem_append.mp ha with ha | ha
    · exact Nat.lt_succ_of_lt (hlt a ha)
    · simp only [List.mem_singleton] at ha
      subst ha
      simp [mkArticle]

theorem processItems_idInv (feed : Feed) (now : Int) (insertFails : RSSItem → Bool)
    (items : List RSSItem) (acc : List Article × Nat × Nat) (h : IdInv acc.1 acc.2.1) :
    IdInv ((items.foldl (processItem feed now insertFails) acc)).1
      ((items.foldl (processItem feed now insertFails) acc)).2.1 := by
  induction items generalizing acc with
  | nil => exact h
  | cons it rest ih =>
    exact ih _ (processItem_idInv feed now insertFails acc it h)

theorem processItem_urlNodup (feed : Feed) (now : Int) (insertFails : RSSItem → Bool)
    (acc : List Article × Nat × Nat) (item : RSSItem)
    (h : (acc.1.map (·.url)).Nodup) :
    ((processItem feed now insertFails acc item).1.map (·.url)).Nodup := by
  simp only [processItem]
  split
  · exact h
  split
  case isTrue => exact h
  case isFalse hany =>
  split
  · exact h
  rw [List.map_append]
  refine List.Nodup.append h (List.nodup_singleton _) ?_
  intro x hx1 hx2
  simp only [mkArticle, List.map_cons, List.map_nil, List.mem_singleton] at hx2
  subst hx2
  obtain ⟨a, ha, hurl⟩ := List.mem_map.mp hx1
  exact hany (List.any_eq_true.mpr ⟨a, ha, by simp [hurl]⟩)

theorem processItems_urlNodup (feed : Feed) (now : Int) (insertFails : RSSItem → Bool)
    (items : List RSSItem) (acc : List Article × Nat × Nat)
    (h : (acc.1.map (·.url)).Nodup) :
    (((items.foldl (processItem feed now insertFails) acc)).1.map (·.url)).Nodup := by
  induction items generalizing acc with
  | nil => exact h
  | cons it rest ih =>
    exact ih _ (processItem_urlNodup feed now insertFails acc it h)

theorem cleanup_sublist (arts : List Article) (fid cap : Nat) :
    (cleanupOldArticles arts fid cap).Sublist arts := by
  simp only [cleanupOldArticles]
  exact List.filter_sublist arts

theorem cleanup_count_le (arts : List Article) (fid cap : Nat)
    (hnd : (arts.map (·.id)).Nodup) :
    ((cleanupOldArticles arts fid cap).filter (fun a => a.feedId == fid)).length ≤ cap := by
  simp only [cleanupOldArticles]
  rw [List.filter_filter]
  set keep :=
    (((arts.filter (fun a => a.feedId == fid)).insertionSort pubDesc).take cap).map (·.id)
    with hkeep
  set L := arts.filter
    (fun a => (a.feedId == fid) && (!(a.feedId == fid) || keep.contains a.id)) with hL
  have hsubL : L.Sublist arts := List.filter_sublist arts
  have hndL : (L.map (·.id)).Nodup := hnd.sublist (hsubL.map _)
  have hmem : ∀ x ∈ L.map (·.id), x ∈ keep := by
    intro x hx
    obtain ⟨a, haL, hid⟩ := List.mem_map.mp hx
    subst hid
    have hfa := (List.mem_filter.mp haL).2
    simp only [Bool.and_eq_true, Bool.or_eq_true, Bool.not_eq_true'] at hfa
    rcases hfa.2 with hcontra | hcontains
    · rw [hfa.1] at hcontra
      cases hcontra
    · exact List.mem_of_elem_eq_true hcontains
  calc L.length = (L.map (·.id)).length := (List.length_map _ _).symm
    _ = (L.map (·.id)).toFinset.card := (List.toFinset_card_of_nodup hndL).symm
    _ ≤ keep.toFinset.card := by
        apply Finset.card_le_card
        intro x hx
        exact List.mem_toFinset.mpr (hmem x (List.mem_toFinset.mp hx))
    _ ≤ keep.length := List.toFinset_card_le keep
    _ ≤ cap := by
        rw [hkeep, List.length_map]
        exact List.length_take_le _ _

/-- C3: when `fetchFeed(feedId)` completes a fetch (feed present, active,
document parsed), the number of article rows of that feed does not exceed
the current `maxArticlesPerFeed` setting: the trailing cleanup keeps only
the `maxArticlesPerFeed` most recently published rows of the feed. -/
theorem c3_fetchFeed_trim (st : DBState) (feedId : Nat) (now : Int)
    (items : List RSSItem) (insertFails : RSSItem → Bool)
    (hnd : (st.articles.map (·.id)).Nodup)
    (hbound : ∀ a ∈ st.articles, a.id < st.nextId)
    (hsuccess : (fetchFeed st feedId now (Except.ok items) insertFails).2.success = true) :
    (((fetchFeed st feedId now (Except.ok items) insertFails).1.articles.filter
        (fun a => a.feedId == feedId)).length ≤ getMaxArticlesPerFeed st) := by
  rcases hf : st.feeds.find? (fun f => f.id == feedId) with _ | feed
  · simp [fetchFeed, hf] at hsuccess
  · by_cases hact : feed.isActive
    · simp only [fetchFeed, hf, hact, Bool.not_true, Bool.false_eq_true, if_false]
      apply cleanup_count_le
      exact (processItems_idInv feed now insertFails _ (st.articles, st.nextId, 0)
        ⟨hnd, hbound⟩).1
    · simp [fetchFeed, hf, hact] at hsuccess

theorem c3_fetchFeed_trim_witness :
    ((List.map (·.id) ([] : List Article)).Nodup) ∧
    ((fetchFeed ⟨[⟨1, [], [], ['c'], true, none⟩], [], some 1, 0⟩ 1 0
        (Except.ok [⟨some ['t'], some ['u'], none, none, none, some 5⟩,
                    ⟨some ['s'], some ['v'], none, none, none, some 6⟩])
        (fun _ => false)).2.success = true) ∧
    (((fetchFeed ⟨[⟨1, [], [], ['c'], true, none⟩], [], some 1, 0⟩ 1 0
        (Except.ok [⟨some ['t'], some ['u'], none, none, none, some 5⟩,
                    ⟨some ['s'], some ['v'], none, none, none, some 6⟩])
        (fun _ => false)).1.articles.filter (fun a => a.feedId == 1)).length ≤
      getMaxArticlesPerFeed ⟨[⟨1, [], [], ['c'], true, none⟩], [], some 1, 0⟩) :=
  ⟨by decide, by decide,
   c3_fetchFeed_trim ⟨[⟨1, [], [], ['c'], true, none⟩], [], some 1, 0⟩ 1 0
     [⟨some ['t'], some ['u'], none, none, none, some 5⟩,
      ⟨some ['s'], some ['v'], none, none, none, some 6⟩]
     (fun _ => false) (by decide) (by decide) (by decide)⟩

/-- C4: article urls are unique — an entry whose link equals the url of an
existing article row is skipped, leaving the articles table untouched, and
a whole `fetchFeed` run preserves distinctness of the stored urls. -/
theorem c4_url_dedup :
    (∀ (feed : Feed) (now : Int) (insertFails : RSSItem → Bool)
        (acc : List Article × Nat × Nat) (item : RSSItem),
      (∃ a ∈ acc.1, a.url = jsStr item.link) →
      processItem feed now insertFails acc item = acc) ∧
    (∀ (st : DBState) (feedId : Nat) (now : Int)
        (pr : Except String (List RSSItem)) (insertFails : RSSItem → Bool),
      (st.articles.map (·.url)).Nodup →
      ((fetchFeed st feedId now pr insertFails).1.articles.map (·.url)).Nodup) := by
  constructor
  · intro feed now insertFails acc item ⟨a, ha, hurl⟩
    simp only [processItem]
    split
    · rfl
    have hany : acc.1.any (fun x => x.url == jsStr item.link) = true :=
      List.any_eq_true.mpr ⟨a, ha, by simp [hurl]⟩
    simp [hany]
  · intro st feedId now pr insertFails hnd
    rcases hf : st.feeds.find? (fun f => f.id == feedId) with _ | feed
    · simpa [fetchFeed, hf] using hnd
    · by_cases hact : feed.isActive
      · rcases pr with msg | items
        · simpa [fetchFeed, hf, hact] using hnd
        · simp only [fetchFeed, hf, hact, Bool.not_true, Bool.false_eq_true, if_false]
          have hproc := processItems_urlNodup feed now insertFails
            (items.take (getMaxArticlesPerFeed st)) (st.articles, st.nextId, 0) hnd
          exact hproc.sublist ((cleanup_sublist _ _ _).map _)
      · simpa [fetchFeed, hf, hact] using hnd

theorem c4_url_dedup_witness :
    (processItem ⟨1, [], [], ['c'], true, none⟩ 0 (fun _ => false)
        ([⟨0, 1, ['t'], [], [], none, 5, ['u'], false, false, none, none, none⟩], 1, 0)
        ⟨some ['s'], some ['u'], none, none, none, some 6⟩
      = ([⟨0, 1, ['t'], [], [], none, 5, ['u'], false, false, none, none, none⟩], 1, 0)) ∧
    ((fetchFeed ⟨[⟨1, [], [], ['c'], true, none⟩],
        [⟨0, 1, ['t'], [], [], none, 5, ['u'], false, false, none, none, none⟩], none, 1⟩ 1 0
        (Except.ok [⟨some ['s'], some ['u'], none, none, none, some 6⟩])
        (fun _ => false)).1.articles.map (·.url)).Nodup :=
  ⟨(c4_url_dedup.1 ⟨1, [], [], ['c'], true, none⟩ 0 (fun _ => false)
      ([⟨0, 1, ['t'], [], [], none, 5, ['u'], false, false, none, none, none⟩], 1, 0)
      ⟨some ['s'], some ['u'], none, none, none, some 6⟩
      ⟨⟨0, 1, ['t'], [], [], none, 5, ['u'], false, false, none, none, none⟩,
        by decide, rfl⟩),
   (c4_url_dedup.2 ⟨[⟨1, [], [], ['c'], true, none⟩],
      [⟨0, 1, ['t'], [], [], none, 5, ['u'], false, false, none, none, none⟩], none, 1⟩ 1 0
      (Except.ok [⟨some ['s'], some ['u'], none, none, none, some 6⟩])
      (fun _ => false) (by decide))⟩

/-- The feed referenced by `feedId` is missing or inactive (the guard at the
top of `FeedFetcher.fetchFeed`). -/
def feedMissingOrInactiveB (st : DBState) (feedId : Nat) : Bool :=
  match st.feeds.find? (fun f => f.id == feedId) with
  | none => true
  | some f => !f.isActive

def feedMissingOrInactive (st : DBState) (feedId : Nat) : Prop :=
  feedMissingOrInactiveB st feedId = true

instance (st : DBState) (feedId : Nat) : Decidable (feedMissingOrInactive st feedId) :=
  inferInstanceAs (Decidable (feedMissingOrInactiveB st feedId = true))

/-- C5, counterexample: with no matching feed row and a parse outcome that
did not throw (`Except.ok []`), `fetchFeed` still reports `success:false`
together with an error message (`'Feed not found or inactive'`) — so an
error message is not reported only when the feed-level fetch itself
throws. -/
theorem c5_counterexample :
    (fetchFeed ⟨[], [], none, 0⟩ 0 0 (Except.ok []) (fun _ => false)).2
      = ⟨false, 0, some "Feed not found or inactive"⟩ ∧
    (fetchFeed ⟨[], [], none, 0⟩ 0 0 (Except.ok []) (fun _ => false)).2.error ≠ none := by
  constructor
  · rfl
  · intro h
    cases h

/-- C5, amended: when the feed is missing or inactive `fetchFeed` returns
`success:false` with the fixed message `'Feed not found or inactive'`
(without throwing); when the feed exists and is active, the call reports
`success:false` with an error message exactly when the feed-level fetch
throws (carrying that error's message), and otherwise reports
`success:true` with no error regardless of per-entry failures (missing
link/title or per-article insert errors never affect the success flag). -/
theorem c5_fetchFeed_error_semantics (st : DBState) (feedId : Nat) (now : Int)
    (insertFails : RSSItem → Bool) :
    (feedMissingOrInactive st feedId →
      ∀ pr, (fetchFeed st feedId now pr insertFails).2
        = ⟨false, 0, some "Feed not found or inactive"⟩) ∧
    (¬ feedMissingOrInactive st feedId →
      (∀ msg, (fetchFeed st feedId now (Except.error msg) insertFails).2
        = ⟨false, 0, some msg⟩) ∧
      (∀ items, (fetchFeed st feedId now (Except.ok items) insertFails).2.success = true ∧
        (fetchFeed st feedId now (Except.ok items) insertFails).2.error = none)) := by
  rcases hf : st.feeds.find? (fun f => f.id == feedId) with _ | feed
  · refine ⟨fun _ pr => ?_, fun hna => absurd ?_ hna⟩
    · simp [fetchFeed, hf]
    · simp [feedMissingOrInactive, feedMissingOrInactiveB, hf]
  · by_cases hact : feed.isActive
    · refine ⟨fun hmi => ?_, fun _ => ⟨fun msg => ?_, fun items => ?_⟩⟩
      · exfalso
        simp only [feedMissingOrInactive, feedMissingOrInactiveB, hf,
          Bool.not_eq_true'] at hmi
        rw [hmi] at hact
        cases hact
      · simp [fetchFeed, hf, hact]
      · constructor <;> simp [fetchFeed, hf, hact]
    · refine ⟨fun _ pr => ?_, fun hna => absurd ?_ hna⟩
      · simp [fetchFeed, hf, hact]
      · simp only [feedMissingOrInactive, feedMissingOrInactiveB, hf]
        simpa using hact

theorem c5_fetchFeed_error_semantics_witness :
    (feedMissingOrInactive ⟨[], [], none, 0⟩ 0 ∧
      (fetchFeed ⟨[], [], none, 0⟩ 0 0 (Except.error "boom") (fun _ => false)).2
        = ⟨false, 0, some "Feed not found or inactive"⟩) ∧
    (¬ feedMissingOrInactive ⟨[⟨1, [], [], ['c'], true, none⟩], [], none, 0⟩ 1 ∧
      (fetchFeed ⟨[⟨1, [], [], ['c'], true, none⟩], [], none, 0⟩ 1 0
        (Except.error "boom") (fun _ => false)).2 = ⟨false, 0, some "boom"⟩ ∧
      (fetchFeed ⟨[⟨1, [], [], ['c'], true, none⟩], [], none, 0⟩ 1 0
        (Except.ok [⟨none, some ['u'], none, none, none, none⟩]) (fun _ => true)).2.success
        = true) :=
  ⟨⟨by decide,
    (c5_fetchFeed_error_semantics ⟨[], [], none, 0⟩ 0 0 (fun _ => false)).1
      (by decide) (Except.error "boom")⟩,
   ⟨by decide,
    ((c5_fetchFeed_error_semantics ⟨[⟨1, [], [], ['c'], true, none⟩], [], none, 0⟩ 1 0
        (fun _ => false)).2 (by decide)).1 "boom",
    (((c5_fetchFeed_error_semantics ⟨[⟨1, [], [], ['c'], true, none⟩], [], none, 0⟩ 1 0
        (fun _ => true)).2 (by decide)).2
      [⟨none, some ['u'], none, none, none, none⟩]).1⟩⟩

/-! ### AI truncation (`AIService.truncateText`)

At the two call-site caps (2000 for summarization, 1000 for embedding) the
IEEE-double products `cap * 0.7` and `cap * 0.5` are exactly `1400`, `700`,
`1000` and `500`, so the float comparisons of the source translate to the
exact integer comparisons `10 * idx > 7 * cap` and `2 * idx > cap`. -/

def truncateText (text : Str) (maxLength : Nat) : Str :=
  if text.length ≤ maxLength then text
  else
    let truncated := text.take maxLength
    let lastSentence := jsLastIndexOf truncated '.'
    let lastParagraph := jsLastIndexOf truncated '\n'
    let lastSpace := jsLastIndexOf truncated ' '
    if 10 * lastSentence > 7 * (maxLength : Int) then
      truncated.take (lastSentence + 1).toNat
    else if 2 * lastParagraph > (maxLength : Int) then
      truncated.take lastParagraph.toNat
    else if lastSpace > 0 then
      truncated.take lastSpace.toNat
    else truncated

/-- The truncation applied by `AIService.summarizeText` before the
completion call. -/
def summarizeTruncation (text : Str) : Str := truncateText text 2000

/-- The truncation applied by `AIService.generateEmbedding`. -/
def embeddingTruncation (text : Str) : Str := truncateText text 1000

/-- The claim's concrete scenario: a 2500-character input whose only `.`
within the first 2000 characters sits at position 1800. -/
def c7Example : Str :=
  List.replicate 1800 'a' ++ ['.'] ++ List.replicate 699 'b'

theorem idxOf?_replicate_append (n : Nat) (c b : Char) (hne : b ≠ c) (t : Str) :
    idxOf? c (List.replicate n b ++ c :: t) = some n := by
  induction n with
  | zero => simp [idxOf?]
  | succ n ih => simp [List.replicate_succ, idxOf?, hne, ih]

theorem c7Example_length : c7Example.length = 2500 := by
  show ((List.replicate 1800 'a' ++ ['.']) ++ List.replicate 699 'b').length = 2500
  rw [List.length_append, List.length_append, List.length_replicate,
    List.length_replicate, List.length_singleton]

theorem c7Prefix_length : (List.replicate 1800 'a' ++ ['.']).length = 1801 := by
  rw [List.length_append, List.length_replicate, List.length_singleton]

theorem c7Example_take : c7Example.take 2000
    = (List.replicate 1800 'a' ++ ['.']) ++ List.replicate 199 'b' := by
  have hA : (List.replicate 1800 'a' ++ ['.']).length ≤ 2000 := by
    rw [c7Prefix_length]
    norm_num
  show ((List.replicate 1800 'a' ++ ['.']) ++ List.replicate 699 'b').take 2000 = _
  rw [List.take_append_eq_append_take, List.take_of_length_le hA, c7Prefix_length]
  congr 1

theorem c7Example_lastDot : jsLastIndexOf (c7Example.take 2000) '.' = 1800 := by
  have hrev : (c7Example.take 2000).reverse
      = List.replicate 199 'b' ++ '.' :: List.replicate 1800 'a' := by
    rw [c7Example_take, List.reverse_append, List.reverse_append,
      List.reverse_replicate, List.reverse_replicate, List.reverse_singleton,
      List.singleton_append]
  have hlen2 : (c7Example.take 2000).length = 2000 := by
    rw [List.length_take, c7Example_length]
    omega
  unfold jsLastIndexOf
  rw [hrev, idxOf?_replicate_append 199 '.' 'b' (by decide)]
  show ((c7Example.take 2000).length : Int) - 1 - (199 : Nat) = 1800
  rw [hlen2]
  norm_num

/-- C7: `summarizeText` truncates at 2000 characters and `generateEmbedding`
at 1000; input at or under the cap is returned unchanged; otherwise the cut
is at the last `.` of the first `cap` characters when its position exceeds
70% of the cap (keeping the period), else at the last newline when its
position exceeds 50% of the cap, else at the last space when it is
positive, else a hard cut; the concrete 2500-character input with its last
sentence end at position 1800 is truncated exactly at that sentence end. -/
theorem c7_truncateText_boundaries :
    (∀ text, summarizeTruncation text = truncateText text 2000) ∧
    (∀ text, embeddingTruncation text = truncateText text 1000) ∧
    (∀ (text : Str) (cap : Nat), text.length ≤ cap → truncateText text cap = text) ∧
    (∀ (text : Str) (cap : Nat), cap < text.length →
      (10 * jsLastIndexOf (text.take cap) '.' > 7 * (cap : Int) →
        truncateText text cap
          = (text.take cap).take (jsLastIndexOf (text.take cap) '.' + 1).toNat) ∧
      (¬ 10 * jsLastIndexOf (text.take cap) '.' > 7 * (cap : Int) →
        2 * jsLastIndexOf (text.take cap) '\n' > (cap : Int) →
        truncateText text cap
          = (text.take cap).take (jsLastIndexOf (text.take cap) '\n').toNat) ∧
      (¬ 10 * jsLastIndexOf (text.take cap) '.' > 7 * (cap : Int) →
        ¬ 2 * jsLastIndexOf (text.take cap) '\n' > (cap : Int) →
        jsLastIndexOf (text.take cap) ' ' > 0 →
        truncateText text cap
          = (text.take cap).take (jsLastIndexOf (text.take cap) ' ').toNat) ∧
      (¬ 10 * jsLastIndexOf (text.take cap) '.' > 7 * (cap : Int) →
        ¬ 2 * jsLastIndexOf (text.take cap) '\n' > (cap : Int) →
        ¬ jsLastIndexOf (text.take cap) ' ' > 0 →
        truncateText text cap = text.take cap)) ∧
    (c7Example.length = 2500 ∧
      jsLastIndexOf (c7Example.take 2000) '.' = 1800 ∧
      summarizeTruncation c7Example = List.replicate 1800 'a' ++ ['.']) := by
  refine ⟨fun _ => rfl, fun _ => rfl, ?_, ?_, ?_⟩
  · intro text cap h
    simp [truncateText, h]
  · intro text cap h
    have hnot : ¬ text.length ≤ cap := by omega
    refine ⟨?_, ?_, ?_, ?_⟩
    · intro h1
      simp [truncateText, hnot, h1]
    · intro h1 h2
      simp [truncateText, hnot, h1, h2]
    · intro h1 h2 h3
      simp [truncateText, hnot, h1, h2, h3]
    · intro h1 h2 h3
      simp [truncateText, hnot, h1, h2, h3]
  · refine ⟨c7Example_length, c7Example_lastDot, ?_⟩
    show truncateText c7Example 2000 = _
    have hnot : ¬ c7Example.length ≤ 2000 := by
      rw [c7Example_length]
      norm_num
    simp only [truncateText, if_neg hnot, c7Example_lastDot]
    rw [if_pos (by norm_num)]
    have h1801 : ((1800 : Int) + 1).toNat = 1801 := by decide
    have hA : (List.replicate 1800 'a' ++ ['.']).length ≤ 1801 := c7Prefix_length.le
    rw [c7Example_take, h1801, List.take_append_eq_append_take,
      List.take_of_length_le hA, c7Prefix_length, Nat.sub_self, List.take_zero,
      List.append_nil]

theorem c7_truncateText_boundaries_witness :
    truncateText ['h', 'i'] 2000 = ['h', 'i'] ∧
    truncateText "aaaaaaaa.bb".toList 10 = "aaaaaaaa.".toList := by
  constructor
  · exact c7_truncateText_boundaries.2.2.1 ['h', 'i'] 2000 (by decide)
  · have h := (c7_truncateText_boundaries.2.2.2.1 "aaaaaaaa.bb".toList 10
      (by decide)).1 (by decide)
    rw [h]
    decide

/-! ### Similarity search (`VectorSearchService`)

Scores are exact rationals; they model the JavaScript doubles of the source,
whose values in this computation (small sums of dyadic-free fractions) are
compared only for `> 0` and relative order. -/

theorem toNat_ofNat_valid (n : Nat) (h : n.isValidChar) : (Char.ofNat n).toNat = n := by
  unfold Char.ofNat
  rw [dif_pos h]
  rfl

theorem toLower_idem (c : Char) : c.toLower.toLower = c.toLower := by
  by_cases h : c.toNat ≥ 65 ∧ c.toNat ≤ 90
  · have hval : (c.toNat + 32).isValidChar := Or.inl (by omega)
    have h1 : c.toLower = Char.ofNat (c.toNat + 32) := by
      unfold Char.toLower
      rw [if_pos h]
    have h2 : (Char.ofNat (c.toNat + 32)).toNat = c.toNat + 32 :=
      toNat_ofNat_valid _ hval
    rw [h1]
    unfold Char.toLower
    rw [h2, if_neg (by omega)]
  · have h1 : c.toLower = c := by
      unfold Char.toLower
      rw [if_neg h]
    rw [h1, h1]

theorem lower_idem (s : Str) : lower (lower s) = lower s := by
  unfold lower
  rw [List.map_map]
  exact List.map_congr_left fun c _ => toLower_idem c

/-- `s.split(/\s+/)`: maximal whitespace runs separate tokens; a leading or
trailing run contributes an empty token, and the empty string yields
`[""]`.  `skip` is true while consuming a run whose token has already been
emitted; `cur` holds the current token reversed. -/
def splitGo (skip : Bool) (cur : Str) : Str → List Str
  | [] => [cur.reverse]
  | c :: rest =>
    if isWs c then
      if skip then splitGo true [] rest
      else cur.reverse :: splitGo true [] rest
    else splitGo false (c :: cur) rest

def jsSplitWs (s : Str) : List Str := splitGo false [] s

/-- `DatabaseService.mapArticleRow` on the category column:
`row.category || undefined` (both `NULL` and `''` become undefined). -/
def mapCategory : Option Str → Option Str
  | some s => if s.isEmpty then none else some s
  | none => none

/-- `Math.min` on rationals, written computably. -/
def jsMin (a b : ℚ) : ℚ := if a ≤ b then a else b

/-- `VectorSearchService.calculateTextSimilarity(query, article)`; the
caller passes `query.toLowerCase()`.  Word sets are modelled by
deduplicated lists; the category guard is the truthiness check
`article.category && ...` on the mapped article object. -/
def calculateTextSimilarity (query : Str) (article : Article) : ℚ :=
  let queryWords := (jsSplitWs (lower query)).dedup
  let articleText := lower (article.title ++ [' '] ++ article.snippet ++ [' '] ++ article.content)
  let articleWords := (jsSplitWs articleText).dedup
  let inter := queryWords.filter (fun w => articleWords.contains w)
  let union := (queryWords ++ articleWords).dedup
  let sim : ℚ := (inter.length : ℚ) / (union.length : ℚ)
  let sim := if jsIncludes (lower article.title) query then sim + 3/10 else sim
  let sim :=
    match mapCategory article.category with
    | some cat => if jsIncludes (lower cat) query then sim + 1/10 else sim
    | none => sim
  jsMin sim 1

/-- The similarity score as the claim words it: the Jaccard index of the
lowercase whitespace-split word sets of the query and of
title+snippet+content, plus 0.3 when the raw lowercase query is a substring
of the lowercase title, plus 0.1 when it is a substring of the lowercase
category, clamped to at most 1. -/
def specSimilarity (query : Str) (article : Article) : ℚ :=
  let qWords := (jsSplitWs (lower query)).dedup
  let aWords :=
    (jsSplitWs (lower (article.title ++ [' '] ++ article.snippet ++ [' '] ++ article.content))).dedup
  let inter := qWords.filter (fun w => aWords.contains w)
  let union := (qWords ++ aWords).dedup
  let jaccard : ℚ := (inter.length : ℚ) / (union.length : ℚ)
  let boosted := jaccard
    + (if jsIncludes (lower article.title) (lower query) then 3/10 else 0)
    + (match mapCategory article.category with
       | some cat => if jsIncludes (lower cat) (lower query) then 1/10 else 0
       | none => 0)
  jsMin boosted 1

/-- `DatabaseService.getArticles({limit})` as used by the search service:
non-archived rows ordered by `published_at DESC`; `if (options.limit)` means
a zero limit adds no `LIMIT` clause. -/
def getArticlesPage (st : DBState) (limit : Nat) : List Article :=
  let base := (st.articles.filter (fun a => !a.isArchived)).insertionSort pubDesc
  if limit = 0 then base else base.take limit

structure SearchResult where
  articleId : Nat
  score : ℚ
  title : Str
  snippet : Str
  category : Option Str
  publishedAt : Int
deriving Repr, DecidableEq

def mkSearchResult (query : Str) (a : Article) : SearchResult :=
  { articleId := a.id
    score := calculateTextSimilarity (lower query) a
    title := a.title
    snippet := a.snippet
    category := mapCategory a.category
    publishedAt := a.publishedAt }

/-- Descending score order (`(a, b) => b.score - a.score`). -/
def scoreDesc (x y : SearchResult) : Prop := y.score ≤ x.score

instance : DecidableRel scoreDesc := fun x y =>
  inferInstanceAs (Decidable (y.score ≤ x.score))

instance : IsTotal SearchResult scoreDesc :=
  ⟨fun x y => le_total y.score x.score⟩

instance : IsTrans SearchResult scoreDesc :=
  ⟨fun _ _ _ h1 h2 => le_trans h2 h1⟩

/-- `VectorSearchService.searchSimilarArticles(query, limit)`.  The result
of `generateEmbedding(query)` is external and passed as a parameter; any
failure inside the `try` (only the embedding call in this pure model) lands
in the `catch`. -/
def searchSimilarArticles (st : DBState) (query : Str) (limit : Nat)
    (embeddingResult : Except String (List ℚ)) : Except String (List SearchResult) :=
  match embeddingResult with
  | .error _ => .error "Failed to perform semantic search"
  | .ok _ =>
    let articles := getArticlesPage st (limit * 3)
    let scored := (articles.map (mkSearchResult query)).filter (fun r => decide (0 < r.score))
    .ok ((scored.insertionSort scoreDesc).take limit)

/-- `VectorSearchService.findSimilarArticles(articleId, limit)`: builds the
query from the source article's title and snippet, searches for `limit + 1`
results and removes the source article; any thrown error is re-thrown as
`'Failed to find similar articles'`. -/
def findSimilarArticles (st : DBState) (articleId : Nat) (limit : Nat)
    (embeddingResult : Except String (List ℚ)) : Except String (List SearchResult) :=
  match st.articles.find? (fun a => a.id == articleId) with
  | none => .error "Failed to find similar articles"
  | some article =>
    match searchSimilarArticles st (article.title ++ [' '] ++ article.snippet) (limit + 1)
        embeddingResult with
    | .error _ => .error "Failed to find similar articles"
    | .ok results => .ok ((results.filter (fun r => !(r.articleId == articleId))).take limit)

/-- The claim's concrete article with the title-substring match. -/
def tradeArticle : Article :=
  { id := 1, feedId := 1
    title := "US-China Trade Relations".toList
    snippet := "tariffs".toList
    content := "trade talks".toList
    publishedAt := 1
    url := "u".toList
    category := some "Economy".toList }

/-- A candidate with no token overlap and no substring match, for the
claim's comparison. -/
def weatherArticle : Article :=
  { id := 2, feedId := 1
    title := "Weather".toList
    snippet := "sunny".toList
    content := "forecast".toList
    publishedAt := 0
    url := "w".toList
    category := none }

theorem code_similarity_eq_spec (q : Str) (a : Article) :
    calculateTextSimilarity (lower q) a = specSimilarity q a := by
  simp only [calculateTextSimilarity, specSimilarity, lower_idem]
  rcases hmc : mapCategory a.category with _ | cat <;>
    simp only [hmc] <;>
    by_cases ht : jsIncludes (lower a.title) (lower q) = true
  · simp [ht]
  · simp [ht]
  · by_cases hcat : jsIncludes (lower cat) (lower q) = true <;> simp [ht, hcat]
  · by_cases hcat : jsIncludes (lower cat) (lower q) = true <;> simp [ht, hcat]

/-- C6: the similarity score equals the claim's formula (Jaccard index of
the lowercase whitespace-split word sets plus the 0.3 title-substring and
0.1 category-substring boosts, clamped at 1); `searchSimilarArticles`
keeps only positive scores, sorts them descending and returns at most
`limit` results; and the query `"trade"` scores strictly higher against an
article titled `"US-China Trade Relations"` than against any candidate
with no token overlap and no substring match. -/
theorem c6_similarity_scoring :
    (∀ (q : Str) (a : Article), calculateTextSimilarity (lower q) a = specSimilarity q a) ∧
    (∀ (st : DBState) (q : Str) (limit : Nat) (e : List ℚ) (res : List SearchResult),
      searchSimilarArticles st q limit (Except.ok e) = Except.ok res →
      res.length ≤ limit ∧ (∀ r ∈ res, 0 < r.score) ∧ res.Sorted scoreDesc) ∧
    (∀ a2 : Article,
      (∀ w ∈ (jsSplitWs (lower "trade".toList)).dedup,
        w ∉ (jsSplitWs (lower (a2.title ++ [' '] ++ a2.snippet ++ [' '] ++ a2.content))).dedup) →
      jsIncludes (lower a2.title) (lower "trade".toList) = false →
      (match mapCategory a2.category with
       | some c => jsIncludes (lower c) (lower "trade".toList)
       | none => false) = false →
      calculateTextSimilarity (lower "trade".toList) a2
        < calculateTextSimilarity (lower "trade".toList) tradeArticle) := by
  refine ⟨code_similarity_eq_spec, ?_, ?_⟩
  · intro st q limit e res h
    simp only [searchSimilarArticles] at h
    injection h with h
    subst h
    refine ⟨List.length_take_le _ _, ?_, ?_⟩
    · intro r hr
      have hr2 := List.mem_of_mem_take hr
      have hr3 := (List.perm_insertionSort scoreDesc _).mem_iff.mp hr2
      have hr4 := (List.mem_filter.mp hr3).2
      exact of_decide_eq_true hr4
    · exact List.Pairwise.sublist (List.take_sublist _ _)
        (List.sorted_insertionSort scoreDesc _)
  · intro a2 hdisj ht hc
    have hzero : calculateTextSimilarity (lower "trade".toList) a2 = 0 := by
      simp only [calculateTextSimilarity, lower_idem]
      have hfilter :
          ((jsSplitWs (lower "trade".toList)).dedup.filter
            (fun w => ((jsSplitWs (lower (a2.title ++ [' '] ++ a2.snippet ++ [' ']
              ++ a2.content))).dedup).contains w)) = [] := by
        refine List.filter_eq_nil.mpr fun w hw => ?_
        have := hdisj w hw
        simpa using this
      rw [hfilter]
      rcases hmc : mapCategory a2.category with _ | cat
      · simp only [hmc, ht, List.length_nil]
        norm_num [jsMin]
      · rw [hmc] at hc
        have hc2 : jsIncludes (lower cat) (lower "trade".toList) = false := hc
        simp only [hmc, ht, hc2, List.length_nil]
        norm_num [jsMin]
    rw [hzero]
    have hinter : ((jsSplitWs (lower "trade".toList)).dedup.filter
        (fun w => ((jsSplitWs (lower (tradeArticle.title ++ [' '] ++ tradeArticle.snippet
          ++ [' '] ++ tradeArticle.content))).dedup).contains w)).length = 1 := by rfl
    have hunion : (((jsSplitWs (lower "trade".toList)).dedup
        ++ (jsSplitWs (lower (tradeArticle.title ++ [' '] ++ tradeArticle.snippet
          ++ [' '] ++ tradeArticle.content))).dedup).dedup).length = 5 := by rfl
    have htitle : jsIncludes (lower tradeArticle.title) (lower "trade".toList) = true := by rfl
    have hcat : mapCategory tradeArticle.category = some ("Economy".toList) := by rfl
    have hcatInc : jsIncludes (lower "Economy".toList) (lower "trade".toList) = false := by rfl
    simp only [calculateTextSimilarity, lower_idem, hinter, hunion, htitle, hcat, hcatInc,
      if_true, Bool.false_eq_true, if_false]
    simp only [jsMin]
    rw [if_pos (by norm_num)]
    norm_num

theorem c6_similarity_scoring_witness :
    (∃ res, searchSimilarArticles ⟨[], [tradeArticle], none, 2⟩ "trade".toList 1 (Except.ok [])
        = Except.ok res ∧
      res.length ≤ 1 ∧ (∀ r ∈ res, 0 < r.score) ∧ res.Sorted scoreDesc) ∧
    (calculateTextSimilarity (lower "trade".toList) weatherArticle
      < calculateTextSimilarity (lower "trade".toList) tradeArticle) :=
  ⟨⟨_, rfl,
    c6_similarity_scoring.2.1 ⟨[], [tradeArticle], none, 2⟩ "trade".toList 1 [] _ rfl⟩,
   c6_similarity_scoring.2.2 weatherArticle (by decide) (by decide) (by decide)⟩

/-- C10: `searchSimilarArticles` first generates an embedding for the query
and throws `'Failed to perform semantic search'` whenever that call fails,
even though the embedding value is never used by the text-fallback scoring
path (for any two successful embedding values the result is identical); in
particular every `findSimilarArticles` call fails whenever the embedding
capability fails. -/
theorem c10_embedding_required (st : DBState) (query : Str) (limit : Nat) :
    (∀ msg, searchSimilarArticles st query limit (Except.error msg)
        = Except.error "Failed to perform semantic search") ∧
    (∀ e1 e2, searchSimilarArticles st query limit (Except.ok e1)
        = searchSimilarArticles st query limit (Except.ok e2)) ∧
    (∀ articleId msg, findSimilarArticles st articleId limit (Except.error msg)
        = Except.error "Failed to find similar articles") := by
  refine ⟨fun msg => rfl, fun e1 e2 => rfl, ?_⟩
  intro articleId msg
  rcases hfind : st.articles.find? (fun a => a.id == articleId) with _ | article
  · simp [findSimilarArticles, hfind]
  · simp [findSimilarArticles, hfind, searchSimilarArticles]

/-! ### Report export (`GET /reports/:id/export`)

The export query joins the frozen `report_items` links (ordered by their
snapshot `order_index`) with the *current* `workspace_items` and `articles`
rows, so membership and order are frozen while displayed content is live. -/

/-- A `report_items` link row of one report. -/
structure ReportItem where
  workspaceItemId : Nat
  orderIndex : Int
deriving Repr, DecidableEq

/-- One row of the export payload (`exportData.items[i]`). -/
structure ExportItem where
  order : Nat
  title : Str
  category : Option Str
  publishedAt : Int
  url : Str
  summary : Option Str
  content : Str
  analysis : Option Str
  isEdited : Bool
  author : Option Str
deriving Repr, DecidableEq

/-- `ORDER BY ri.order_index ASC`. -/
def riAsc (x y : ReportItem) : Prop := x.orderIndex ≤ y.orderIndex

instance : DecidableRel riAsc := fun x y =>
  inferInstanceAs (Decidable (x.orderIndex ≤ y.orderIndex))

instance : IsTotal ReportItem riAsc := ⟨fun x y => le_total x.orderIndex y.orderIndex⟩

instance : IsTrans ReportItem riAsc := ⟨fun _ _ _ h1 h2 => le_trans h1 h2⟩

/-- The inner joins `report_items → workspace_items → articles`: a link
whose workspace item or article row no longer exists produces no row. -/
def joinRow (wsItems : List WorkspaceItem) (articles : List Article) (ri : ReportItem) :
    Option (WorkspaceItem × Article) :=
  match wsItems.find? (fun w => w.id == ri.workspaceItemId) with
  | none => none
  | some wi =>
    match articles.find? (fun a => a.id == wi.articleId) with
    | none => none
    | some a => some (wi, a)

/-- The item object built by the export route at list index `idx`:
`order: index + 1`, article fields from the current article row,
`content: item.custom_content || item.content` (JavaScript falsy
coalescing), `analysis: item.custom_analysis`. -/
def exportRow (wi : WorkspaceItem) (a : Article) (idx : Nat) : ExportItem :=
  { order := idx + 1
    title := a.title
    category := a.category
    publishedAt := a.publishedAt
    url := a.url
    summary := a.summary
    content := jsOrStr wi.customContent a.content
    analysis := wi.customAnalysis
    isEdited := wi.isEdited
    author := a.author }

/-- The ordered item list of `GET /reports/:id/export` computed against the
current workspace/articles state. -/
def exportReportItems (reportItems : List ReportItem) (wsItems : List WorkspaceItem)
    (articles : List Article) : List ExportItem :=
  (((reportItems.insertionSort riAsc).filterMap (joinRow wsItems articles)).enum).map
    (fun p => exportRow p.2.1 p.2.2 p.1)

/-- The claim's content formula: `customContent ?? article.content`
(nullish coalescing keeps an empty string). -/
def nullishContent (wi : WorkspaceItem) (a : Article) : Str :=
  match wi.customContent with
  | some s => s
  | none => a.content

theorem filterMap_length_of_isSome {α β : Type} (f : α → Option β) (l : List α)
    (h : ∀ x ∈ l, (f x).isSome = true) : (l.filterMap f).length = l.length := by
  induction l with
  | nil => rfl
  | cons a t ih =>
    have ha := h a (List.mem_cons_self a t)
    rcases hfa : f a with _ | b
    · rw [hfa] at ha
      cases ha
    · rw [List.filterMap_cons_some hfa, List.length_cons,
        ih (fun x hx => h x (List.mem_cons_of_mem _ hx)), List.length_cons]

theorem filterMap_get?_of_isSome {α β : Type} (f : α → Option β) (l : List α)
    (h : ∀ x ∈ l, (f x).isSome = true) (k : Nat) :
    (l.filterMap f).get? k = (l.get? k).bind f := by
  induction l generalizing k with
  | nil => simp
  | cons a t ih =>
    have ha := h a (List.mem_cons_self a t)
    rcases hfa : f a with _ | b
    · rw [hfa] at ha
      cases ha
    · rw [List.filterMap_cons_some hfa]
      cases k with
      | zero => simp [hfa]
      | succ k => simpa using ih (fun x hx => h x (List.mem_cons_of_mem _ hx)) k

/-- C9, counterexample: an item whose `custom_content` is the empty string
is exported with the article's content (`custom_content || content` is
falsy coalescing), while the claim's formula `customContent ?? article.content`
(nullish coalescing) keeps the empty string. -/
theorem c9_counterexample :
    (exportReportItems [⟨10, 0⟩] [⟨10, 20, 0, some [], none, true⟩]
        [⟨20, 1, "t".toList, "body".toList, [], none, 0, "u".toList,
          false, false, none, none, none⟩]).map (fun e => e.content)
      = ["body".toList] ∧
    nullishContent ⟨10, 20, 0, some [], none, true⟩
        ⟨20, 1, "t".toList, "body".toList, [], none, 0, "u".toList,
          false, false, none, none, none⟩
      = [] ∧
    ("body".toList : Str) ≠ ([] : Str) :=
  ⟨by decide, rfl, by decide⟩

/-- C9, amended: exporting a report renders, in the frozen order of the
`report_items` snapshot (sorted by its `order_index`), one item per link
whose rows still exist, where every displayed article field comes from the
*current* article row, `analysis` is the current `customAnalysis`, and the
displayed content is `customContent || article.content` — the current
`customContent` when it is non-null and non-empty, else the current
article content (only membership and order come from the snapshot). -/
theorem c9_export_live_frozen (ris : List ReportItem) (wss : List WorkspaceItem)
    (arts : List Article)
    (hres : ∀ ri ∈ ris, (joinRow wss arts ri).isSome = true) :
    (exportReportItems ris wss arts).length = ris.length ∧
    (∀ (k : Nat) (ri : ReportItem) (wi : WorkspaceItem) (a : Article),
      (ris.insertionSort riAsc).get? k = some ri →
      wss.find? (fun w => w.id == ri.workspaceItemId) = some wi →
      arts.find? (fun x => x.id == wi.articleId) = some a →
      (exportReportItems ris wss arts).get? k = some
        { order := k + 1, title := a.title, category := a.category
          publishedAt := a.publishedAt, url := a.url, summary := a.summary
          content := jsOrStr wi.customContent a.content
          analysis := wi.customAnalysis, isEdited := wi.isEdited, author := a.author }) := by
  have hres' : ∀ ri ∈ ris.insertionSort riAsc, (joinRow wss arts ri).isSome = true :=
    fun ri hri => hres ri ((List.perm_insertionSort riAsc ris).mem_iff.mp hri)
  constructor
  · unfold exportReportItems
    rw [List.length_map, List.enum_length, filterMap_length_of_isSome _ _ hres']
    exact (List.perm_insertionSort riAsc ris).length_eq
  · intro k ri wi a hk hw ha
    unfold exportReportItems
    rw [List.get?_map, List.get?_enum, filterMap_get?_of_isSome _ _ hres' k, hk]
    simp [joinRow, hw, ha, exportRow]

theorem c9_export_live_frozen_witness :
    (exportReportItems [⟨10, 0⟩] [⟨10, 20, 0, none, some "an".toList, true⟩]
        [⟨20, 1, "t".toList, "body".toList, [], none, 0, "u".toList,
          false, false, none, none, none⟩]).length = 1 ∧
    (exportReportItems [⟨10, 0⟩] [⟨10, 20, 0, none, some "an".toList, true⟩]
        [⟨20, 1, "t".toList, "body".toList, [], none, 0, "u".toList,
          false, false, none, none, none⟩]).get? 0
      = some ⟨1, "t".toList, none, 0, "u".toList, none, "body".toList,
          some "an".toList, true, none⟩ :=
  ⟨(c9_export_live_frozen [⟨10, 0⟩] [⟨10, 20, 0, none, some "an".toList, true⟩]
      [⟨20, 1, "t".toList, "body".toList, [], none, 0, "u".toList,
        false, false, none, none, none⟩] (by decide)).1,
   (c9_export_live_frozen [⟨10, 0⟩] [⟨10, 20, 0, none, some "an".toList, true⟩]
      [⟨20, 1, "t".toList, "body".toList, [], none, 0, "u".toList,
        false, false, none, none, none⟩] (by decide)).2 0 ⟨10, 0⟩
      ⟨10, 20, 0, none, some "an".toList, true⟩
      ⟨20, 1, "t".toList, "body".toList, [], none, 0, "u".toList,
        false, false, none, none, none⟩ (by decide) (by decide) (by decide)⟩

end InsightWeaver
